import Mathlib

/-!
Shallow embedding of the custom memory allocator in src/myalloc (myalloc.c, list.c).

Modelling conventions:
* The arena returned by malloc starts at address 0, so the first payload
  address (`myalloc.memory` in the C code) is `HEADER_SIZE = 8`.
* Memory is a byte map `Mem : Nat → Nat` (each cell kept below 256 by writes).
* The C code reads every chunk size as `abs(*((char*)p - HEADER_SIZE))`:
  one signed byte, then absolute value.  `sbyte` and `readSize` model that.
* Header updates in allocate/deallocate/is_fragmented go through a `char`
  pointer, i.e. store a single byte (`writeHeaderByte`); only
  `initialize_allocator` stores the full `size_t` (`writeSizeT`).
* The free and allocated registries are the singly linked lists of list.c,
  modelled as `List Nat` of payload addresses (head = list head).
-/

def HEADER_SIZE : Nat := 8

abbrev Mem := Nat → Nat

/-- Value of a byte reinterpreted as a signed char (two's complement). -/
def sbyte (b : Nat) : Int :=
  if b % 256 < 128 then ((b % 256 : Nat) : Int) else ((b % 256 : Nat) : Int) - 256

/-- Chunk size as the allocator reads it: `abs(*((char*)p - HEADER_SIZE))`. -/
def readSize (m : Mem) (p : Nat) : Nat :=
  (sbyte (m (p - HEADER_SIZE))).natAbs

/-- Store one byte (a C `char` store truncates the int to its low byte). -/
def writeByte (m : Mem) (a v : Nat) : Mem :=
  fun x => if x = a then v % 256 else m x

/-- Header update through a char pointer: `*((char*)p - HEADER_SIZE) = v`. -/
def writeHeaderByte (m : Mem) (p v : Nat) : Mem :=
  writeByte m (p - HEADER_SIZE) v

/-- Full 8-byte little-endian store, as in
`*((size_t*)((char*)memory - HEADER_SIZE)) = size` in initialize_allocator. -/
def writeSizeT (m : Mem) (a v : Nat) : Mem :=
  fun x => if a ≤ x ∧ x < a + 8 then (v / 256 ^ (x - a)) % 256 else m x

/-- Overlap-safe byte copy, as C `memmove(dest, src, n)`. -/
def memmove (m : Mem) (dest src n : Nat) : Mem :=
  fun x => if dest ≤ x ∧ x < dest + n then m (src + (x - dest)) else m x

/-! ## list.c operations (lists of block addresses) -/

/-- List_insertHead: refuses a duplicate address, else prepends. -/
def List_insertHead (l : List Nat) (b : Nat) : List Nat :=
  if l.contains b then l else b :: l

/-- List_deleteNode: when the list has exactly one node the head is cleared
unconditionally; otherwise the first node holding the address is unlinked.
(The C function assumes the node is in the list.) -/
def List_deleteNode (l : List Nat) (b : Nat) : List Nat :=
  if l.length = 1 then [] else l.erase b

/-- Mutating the node found by List_findNode in place (allocate's split
branch): the first occurrence of `a` is replaced by `b`, keeping its
position in the list. -/
def replaceFirst : List Nat → Nat → Nat → List Nat
  | [], _, _ => []
  | x :: xs, a, b => if x = a then b :: xs else x :: replaceFirst xs a b

/-! ## Allocator state -/

inductive allocation_algorithm
  | FIRST_FIT
  | BEST_FIT
  | WORST_FIT
deriving DecidableEq

structure Myalloc where
  aalgorithm : allocation_algorithm
  size : Nat
  mem : Mem
  free_list : List Nat
  allocated_list : List Nat
  available_memory : Nat
  used_memory : Nat

/-- Sum of the (header-read) sizes over the free list. -/
def available_memory (st : Myalloc) : Nat :=
  (st.free_list.map (readSize st.mem)).sum

/-- Sum of the (header-read) sizes over the allocated list. -/
def used_memory (st : Myalloc) : Nat :=
  (st.allocated_list.map (readSize st.mem)).sum

/-- initialize_allocator: round the capacity up to the next multiple of 64,
zero the arena, write the full rounded size into the 8-byte header of the
single initial free chunk (a `size_t` store), seed the registries and the
counters. -/
def initialize_allocator (sz : Nat) (alg : allocation_algorithm) : Myalloc :=
  let rounded := ((sz + 63) / 64) * 64
  { aalgorithm := alg
    size := rounded
    mem := writeSizeT (fun _ => 0) 0 rounded
    free_list := [HEADER_SIZE]
    allocated_list := []
    available_memory := rounded
    used_memory := 0 }

/-! ## Placement search (the switch in allocate, lines 98-147) -/

/-- FIRST_FIT loop: first chunk whose read size is at least the request. -/
def firstFitLoop (m : Mem) (sz : Nat) : List Nat → Option Nat
  | [] => none
  | p :: rest => if sz ≤ readSize m p then some p else firstFitLoop m sz rest

/-- BEST_FIT loop.  Note the C comparison
`curr_free_size < *((char*)ptr - HEADER_SIZE)`: the candidate size has been
taken through `abs` but the incumbent header byte is compared raw (signed). -/
def bestFitLoop (m : Mem) (sz : Nat) : List Nat → Option Nat → Option Nat
  | [], acc => acc
  | p :: rest, acc =>
    if sz ≤ readSize m p then
      match acc with
      | none => bestFitLoop m sz rest (some p)
      | some q =>
        if (readSize m p : Int) < sbyte (m (q - HEADER_SIZE)) then
          bestFitLoop m sz rest (some p)
        else
          bestFitLoop m sz rest (some q)
    else bestFitLoop m sz rest acc

/-- WORST_FIT loop, with the same raw-signed-byte comparison on the
incumbent. -/
def worstFitLoop (m : Mem) (sz : Nat) : List Nat → Option Nat → Option Nat
  | [], acc => acc
  | p :: rest, acc =>
    if sz ≤ readSize m p then
      match acc with
      | none => worstFitLoop m sz rest (some p)
      | some q =>
        if (readSize m p : Int) > sbyte (m (q - HEADER_SIZE)) then
          worstFitLoop m sz rest (some p)
        else
          worstFitLoop m sz rest (some q)
    else worstFitLoop m sz rest acc

/-- The placement search of allocate, dispatching on the configured
algorithm. -/
def select (st : Myalloc) (sz : Nat) : Option Nat :=
  match st.aalgorithm with
  | allocation_algorithm.FIRST_FIT => firstFitLoop st.mem sz st.free_list
  | allocation_algorithm.BEST_FIT => bestFitLoop st.mem sz st.free_list none
  | allocation_algorithm.WORST_FIT => worstFitLoop st.mem sz st.free_list none

/-- allocate (myalloc.c lines 80-189).  Returns the allocated address (or
none) together with the post state.  On success the pointer is inserted at
the head of the allocated list; if the leftover of the chosen free chunk
exceeds HEADER_SIZE the chunk is split (both headers stored through a char
pointer and the free node mutated in place), otherwise the whole chunk is
removed from the free list with its header untouched.  The counters are then
recomputed from the lists. -/
def allocate (st : Myalloc) (sz : Nat) : Option Nat × Myalloc :=
  if st.free_list = [] then (none, st)
  else
    match select st sz with
    | none => (none, st)
    | some ptr =>
      let al := List_insertHead st.allocated_list ptr
      let ptrSize := readSize st.mem ptr
      let leftover := ptrSize - sz
      if 8 < leftover then
        let m1 := writeHeaderByte st.mem ptr sz
        let na := ptr + sz + HEADER_SIZE
        let m2 := writeHeaderByte m1 na (leftover - HEADER_SIZE)
        let st1 : Myalloc :=
          { st with mem := m2, free_list := replaceFirst st.free_list ptr na,
                    allocated_list := al }
        (some ptr,
         { st1 with available_memory := available_memory st1,
                    used_memory := used_memory st1 })
      else
        let st1 : Myalloc :=
          { st with free_list := List_deleteNode st.free_list ptr,
                    allocated_list := al }
        (some ptr,
         { st1 with available_memory := available_memory st1,
                    used_memory := used_memory st1 })

/-- First free chunk lying immediately to the right of `p`
(`curr->block == (char*)_ptr + _ptr_size + HEADER_SIZE`). -/
def findRight (p psz : Nat) : List Nat → Option Nat
  | [] => none
  | c :: rest => if c = p + psz + HEADER_SIZE then some c else findRight p psz rest

/-- deallocate (myalloc.c lines 196-263).  Faithful points:
* if the free list is empty the function returns immediately without
  deallocating anything (lines 209-213);
* the right-neighbor merge branch (lines 217-230) merges into `p`'s header,
  moves the neighbor's node to a node for `p` at the free-list head, and
  returns without ever touching the allocated list;
* the left-neighbor loop (lines 233-252) is dead code: `curr` is already
  NULL when it starts, so it never executes;
* only the fall-through path removes `p` from the allocated list. -/
def deallocate (st : Myalloc) (p : Nat) : Myalloc :=
  if st.free_list = [] then st
  else
    let psz := readSize st.mem p
    match findRight p psz st.free_list with
    | some c =>
      let m1 := writeHeaderByte st.mem p (psz + HEADER_SIZE + readSize st.mem c)
      let st1 : Myalloc :=
        { st with mem := m1,
                  free_list := List_insertHead (List_deleteNode st.free_list c) p }
      { st1 with available_memory := available_memory st1,
                 used_memory := used_memory st1 }
    | none =>
      let st1 : Myalloc :=
        { st with allocated_list := List_deleteNode st.allocated_list p,
                  free_list := List_insertHead st.free_list p }
      { st1 with available_memory := available_memory st1,
                 used_memory := used_memory st1 }

/-! ## is_fragmented (myalloc.c lines 299-365) -/

/-- Orientation flag of the adjacency scan: `has_adj == 1` (left) or
`has_adj == 2` (right). -/
inductive Adj
  | left
  | right
deriving DecidableEq

/-- Inner scan of is_fragmented over the nodes after `c` (size of `c`
precomputed as `sc`).  Both adjacency tests run at every node and keep
overwriting `current/adjacent/has_adj`, so the last match wins; at a single
node the left test runs after the right test. -/
def innerScan (m : Mem) (c sc : Nat) : List Nat → Option (Nat × Adj) → Option (Nat × Adj)
  | [], acc => acc
  | n :: rest, acc =>
    let acc1 := if n = c + sc + HEADER_SIZE then some (n, Adj.right) else acc
    let acc2 := if c = n + readSize m n + HEADER_SIZE then some (n, Adj.left) else acc1
    innerScan m c sc rest acc2

/-- Outer scan of is_fragmented: advance until `has_adj` is set, i.e. stop
at the first node whose inner scan produced a match. -/
def outerScan (m : Mem) : List Nat → Option (Nat × Nat × Adj)
  | [] => none
  | c :: rest =>
    match innerScan m c (readSize m c) rest none with
    | some (p, a) => some (c, p, a)
    | none => outerScan m rest

/-- is_fragmented.  Empty free list: false, no mutation.  More than one free
chunk: run the adjacency scan; on a right match absorb the partner into the
current chunk, on a left match absorb the current chunk into the partner
(header stored through a char pointer, absorbed node deleted); return true
either way.  Exactly one free chunk: true iff its address precedes some
allocated address; no mutation.  The statistics fields are not updated. -/
def is_fragmented (st : Myalloc) : Bool × Myalloc :=
  let nf := st.free_list.length
  if nf = 0 then (false, st)
  else if 1 < nf then
    match outerScan st.mem st.free_list with
    | some (c, p, Adj.right) =>
      (true,
       { st with
           mem := writeHeaderByte st.mem c
                    (readSize st.mem c + HEADER_SIZE + readSize st.mem p),
           free_list := List_deleteNode st.free_list p })
    | some (c, p, Adj.left) =>
      (true,
       { st with
           mem := writeHeaderByte st.mem p
                    (readSize st.mem p + HEADER_SIZE + readSize st.mem c),
           free_list := List_deleteNode st.free_list c })
    | none => (true, st)
  else
    match st.free_list with
    | [] => (false, st)
    | f :: _ => (st.allocated_list.any (fun a => decide (f < a)), st)

/-! ## compact_allocation (myalloc.c lines 373-473) -/

/-- Leftmost-free search: start at the head, replace on strictly smaller
addresses. -/
def findLeftmost : List Nat → Nat → Nat
  | [], best => best
  | c :: rest, best => findLeftmost rest (if c < best then c else best)

/-- Body of the `while (is_fragmented())` loop, with explicit fuel (the C
loop need not terminate; every theorem below exhibits enough fuel for the
loop to exit through the condition).  The third component threads the C
variable `dest`, which is declared outside the loop and only assigned inside
it (`none` models it still being uninitialized).  Faithful points:
* the loop condition itself can merge free chunks (it calls is_fragmented);
* the "adjacent" search is an `if`, not a loop: only the head of the
  allocated list is examined;
* `memmove` copies only `size_src` bytes starting at the source header;
* the new free node is created at `dest + size_src + HEADER_SIZE` only when
  that address is not already in the free list, its header byte set to the
  old size of the consumed hole;
* the allocated list is not touched inside the loop. -/
def compactLoop : Nat → Myalloc → Option Nat → Myalloc × Option Nat
  | 0, st, d => (st, d)
  | Nat.succ fuel, st, d =>
    match is_fragmented st with
    | (false, st1) => (st1, d)
    | (true, st1) =>
      match st1.free_list with
      | [] => (st1, d)
      | f :: rest =>
        let leftmost := findLeftmost rest f
        let adjacent : Option Nat :=
          match st1.allocated_list with
          | [] => none
          | a :: _ => if leftmost < a then some a else none
        match adjacent with
        | none => compactLoop fuel st1 d
        | some a =>
          let dest := leftmost - HEADER_SIZE
          let src := a - HEADER_SIZE
          let sizeDest := (sbyte (st1.mem dest)).natAbs
          let sizeSrc := (sbyte (st1.mem src)).natAbs
          let m1 := memmove st1.mem dest src sizeSrc
          let e := dest + sizeSrc + HEADER_SIZE
          let fl1 := List_deleteNode st1.free_list leftmost
          if fl1.contains e then
            compactLoop fuel { st1 with mem := m1, free_list := fl1 } (some dest)
          else
            compactLoop fuel
              { st1 with mem := writeHeaderByte m1 e sizeDest,
                         free_list := List_insertHead fl1 e }
              (some dest)

/-- Final pass of compact_allocation over the allocated list: every node's
block becomes `dest + HEADER_SIZE` (the same value for all nodes), and a
(before, after) pair is recorded exactly when the address changed.  Returns
the new allocated list and the recorded pairs in traversal order. -/
def updateAllocLoop (d : Nat) : List Nat → List Nat × List (Nat × Nat)
  | [] => ([], [])
  | a :: rest =>
    let r := updateAllocLoop d rest
    (d :: r.1, if a = d then r.2 else (a, d) :: r.2)

/-- compact_allocation.  Early exits (returning 0 pairs) when the cached
used or available counter is 0 or either list is empty.  Otherwise drive the
merge/relocate loop, then rewrite the allocated list and report the pairs.
When the loop body never ran, the C code reads the uninitialized `dest`
(undefined behavior); that case is modelled as returning no pairs. -/
def compact_allocation (fuel : Nat) (st : Myalloc) : Nat × List (Nat × Nat) × Myalloc :=
  if st.used_memory = 0 then (0, [], st)
  else if st.available_memory = 0 then (0, [], st)
  else if st.allocated_list.isEmpty then (0, [], st)
  else if st.free_list.isEmpty then (0, [], st)
  else
    match compactLoop fuel st none with
    | (st1, none) => (0, [], st1)
    | (st1, some d) =>
      let r := updateAllocLoop (d + HEADER_SIZE) st1.allocated_list
      let st2 : Myalloc := { st1 with allocated_list := r.1 }
      let st3 :=
        { st2 with available_memory := available_memory st2,
                   used_memory := used_memory st2 }
      (r.2.length, r.2, st3)

/-! ## Concrete states used by the claim analyses -/

/-- Arena of rounded capacity 64, FIRST_FIT. -/
def init64 : Myalloc := initialize_allocator 64 allocation_algorithm.FIRST_FIT

/-- Arena of rounded capacity 128, FIRST_FIT. -/
def init128 : Myalloc := initialize_allocator 128 allocation_algorithm.FIRST_FIT

/-- State after [initialize 64; allocate 16; deallocate 8]: the deallocation
finds the split remainder (at 32) right-adjacent and takes the merge branch. -/
def mergeBranchState : Myalloc := deallocate (allocate init64 16).2 8

/-- State after [initialize 64; allocate 64]: the single allocation consumes
the whole arena, so the free list is empty. -/
def exhaustedState : Myalloc := (allocate init64 64).2

/-- Deallocating the only chunk of the exhausted arena. -/
def exhaustedFreed : Myalloc := deallocate exhaustedState 8

/-- State after [initialize 128; allocate 16; allocate 16; allocate 64;
deallocate 8]: chunk 32 is still allocated, chunk 8 is free and
left-adjacent to it (8 + 16 + 8 = 32), and no free chunk is right-adjacent
to 32. -/
def leftNeighborState : Myalloc :=
  deallocate (allocate (allocate (allocate init128 16).2 16).2 64).2 8

/-- Deallocating 32 in `leftNeighborState` should, per the claim, merge it
into the free left neighbor at 8. -/
def leftNeighborFreed : Myalloc := deallocate leftNeighborState 32

/-- Byte memory of an arena laid out as one free hole (payload at 8, size
`hs`) followed by one allocated chunk (payload at `hs + 16`, size `cs`). -/
def holeChunkMem (hs cs : Nat) : Mem :=
  fun x => if x = 0 then hs else if x = hs + HEADER_SIZE then cs else 0

/-- Arena with one free hole followed by one allocated chunk, the layout of
claim C5.  The cached counters agree with the lists. -/
def holeChunkState (hs cs : Nat) : Myalloc :=
  { aalgorithm := allocation_algorithm.FIRST_FIT
    size := hs + HEADER_SIZE + cs
    mem := holeChunkMem hs cs
    free_list := [HEADER_SIZE]
    allocated_list := [hs + 2 * HEADER_SIZE]
    available_memory := hs
    used_memory := cs }

/-- Memory for the C6 counterexample: free chunks at 40 (size 16), 64
(size 8) and 8 (size 24).  64 is right-adjacent to 40 (40 + 16 + 8) and 8 is
left-adjacent to 40 (8 + 24 + 8 = 40). -/
def tripleFreeMem : Mem :=
  fun x => if x = 32 then 16 else if x = 56 then 8 else if x = 0 then 24 else 0

/-- Free list [40, 64, 8] over `tripleFreeMem`: the first adjacent pair in
traversal order is (40, 64), but 40 also has the later partner 8. -/
def tripleFreeState : Myalloc :=
  { aalgorithm := allocation_algorithm.FIRST_FIT, size := 128,
    mem := tripleFreeMem, free_list := [40, 64, 8], allocated_list := [],
    available_memory := 48, used_memory := 0 }

/-- Memory for the C7 counterexample: the chunk at 8 has header byte 200
(signed −56, read size 56) and the chunk at 24 has header byte 16. -/
def signedByteMem : Mem :=
  fun x => if x = 0 then 200 else if x = 16 then 16 else 0

/-- BEST_FIT state over `signedByteMem` with free list [8, 24]. -/
def bestFitState : Myalloc :=
  { aalgorithm := allocation_algorithm.BEST_FIT, size := 128,
    mem := signedByteMem, free_list := [8, 24], allocated_list := [],
    available_memory := 72, used_memory := 0 }

/-- WORST_FIT state over `signedByteMem` with free list [8, 24]. -/
def worstFitState : Myalloc :=
  { bestFitState with aalgorithm := allocation_algorithm.WORST_FIT }

/-! ## Helper lemmas about header bytes -/

theorem HEADER_SIZE_eq : HEADER_SIZE = 8 := rfl

theorem sbyte_mod (v : Nat) : sbyte (v % 256) = sbyte v := by
  unfold sbyte
  rw [Nat.mod_mod_of_dvd v dvd_rfl]

theorem sbyte_natAbs_small (b : Nat) (h : b < 128) : (sbyte b).natAbs = b := by
  unfold sbyte
  rw [Nat.mod_eq_of_lt (by omega), if_pos h]
  omega

theorem readSize_le_128 (m : Mem) (p : Nat) : readSize m p ≤ 128 := by
  unfold readSize sbyte
  split
  · omega
  · omega

theorem readSize_writeHeaderByte_self (m : Mem) (p v : Nat) :
    readSize (writeHeaderByte m p v) p = (sbyte v).natAbs := by
  unfold readSize writeHeaderByte writeByte
  rw [if_pos rfl, sbyte_mod]

theorem readSize_writeHeaderByte_ne (m : Mem) (p v q : Nat)
    (h : q - HEADER_SIZE ≠ p - HEADER_SIZE) :
    readSize (writeHeaderByte m p v) q = readSize m q := by
  unfold readSize writeHeaderByte writeByte
  rw [if_neg h]

theorem readSize_write_small (m : Mem) (p v : Nat) (h : v < 128) :
    readSize (writeHeaderByte m p v) p = v := by
  rw [readSize_writeHeaderByte_self, sbyte_natAbs_small v h]

/-! ## Claim theorems -/

/-- Claim C1 (code bug).  After [initialize 64; allocate 16], address 8 is
in the Allocated Registry and `deallocate 8` takes the right-neighbor merge
branch (the free list afterwards is exactly [8]).  The claim says 8 is no
longer present in the Allocated Registry afterwards; in fact the merge
branch of deallocate never removes the pointer from the allocated list, so 8
is still there. -/
theorem C1_merge_branch_keeps_allocated_entry :
    (allocate init64 16).1 = some 8
    ∧ 8 ∈ (allocate init64 16).2.allocated_list
    ∧ mergeBranchState.free_list = [8]
    ∧ 8 ∈ mergeBranchState.allocated_list := by decide

/-- Claim C3 (code bug).  Two calls into the freshly initialized 64-byte
arena — allocate(16) then deallocate(8) — leave address 8 in both
registries at once, with `used_memory() + available_memory() = 128`
exceeding the rounded capacity 64.  Both invariants of the claim fail at
this observation point. -/
theorem C3_invariants_fail_after_merge_branch :
    8 ∈ mergeBranchState.free_list
    ∧ 8 ∈ mergeBranchState.allocated_list
    ∧ mergeBranchState.size = 64
    ∧ used_memory mergeBranchState + available_memory mergeBranchState = 128
    ∧ ¬ (used_memory mergeBranchState + available_memory mergeBranchState
          ≤ mergeBranchState.size) := by decide

/-- Claim C4 (code bug).  N = 1: allocate(64) exactly exhausts the 64-byte
arena (the free list becomes empty).  Deallocating the single chunk then
hits the `free_list == NULL` early return of deallocate (myalloc.c lines
209-213) and does nothing: afterwards the free list is still empty and
`available_memory()` is 0, not the rounded capacity 64. -/
theorem C4_deallocate_noop_on_empty_free_list :
    (allocate init64 64).1 = some 8
    ∧ exhaustedState.free_list = []
    ∧ exhaustedFreed.free_list = []
    ∧ exhaustedFreed.allocated_list = [8]
    ∧ available_memory exhaustedFreed = 0
    ∧ exhaustedFreed.size = 64 := by decide

/-- Claim C2 (code bug).  In `leftNeighborState`, 32 is allocated with read
size 16, the free chunk 8 satisfies 8 + size(8) + 8 = 32 (left-adjacent) and
no free chunk is right-adjacent to 32.  The claim says deallocate(32) merges
32 into the neighbor: header at 8 becomes 16 + 8 + 16 = 40.  In fact the
left-neighbor loop of deallocate (myalloc.c lines 233-252) is dead code
(`curr` is already NULL when it starts), so 32 is inserted as a separate
free chunk and the header at 8 keeps the value 16. -/
theorem C2_left_merge_is_dead_code :
    32 ∈ leftNeighborState.allocated_list
    ∧ 8 ∈ leftNeighborState.free_list
    ∧ readSize leftNeighborState.mem 8 = 16
    ∧ 8 + readSize leftNeighborState.mem 8 + HEADER_SIZE = 32
    ∧ findRight 32 (readSize leftNeighborState.mem 32) leftNeighborState.free_list
        = none
    ∧ leftNeighborFreed.free_list = [32, 8, 128]
    ∧ readSize leftNeighborFreed.mem 8 = 16
    ∧ readSize leftNeighborFreed.mem 8 ≠ 40 := by decide

/-- Claim C5, counterexample.  With the hole (size 16) not smaller than the
allocated chunk (size 16) minus the header, the relocation loop runs twice
and the single allocated chunk ends at address 24, not at the arena base 8,
so the allocated payloads do not occupy a contiguous prefix of the arena
even though the call still returns one pair. -/
theorem C5_counterexample :
    (compact_allocation 3 (holeChunkState 16 16)).1 = 1
    ∧ (compact_allocation 3 (holeChunkState 16 16)).2.2.allocated_list = [24]
    ∧ 8 ∉ (compact_allocation 3 (holeChunkState 16 16)).2.2.allocated_list := by
  decide

/-- Claim C6, counterexample.  In `tripleFreeState` the first mutually
adjacent pair in traversal order is (40, 64) (right-adjacent), whose merge
would set the header at 40 to 16 + 8 + 8 = 32 and leave the free list
[40, 8].  The code instead keeps scanning and the later partner 8 of 40
wins (left-adjacent), so it merges (40, 8): header at 8 becomes
24 + 8 + 16 = 48 and the free list becomes [64, 8]. -/
theorem C6_counterexample :
    (is_fragmented tripleFreeState).1 = true
    ∧ 64 = 40 + readSize tripleFreeMem 40 + HEADER_SIZE
    ∧ (is_fragmented tripleFreeState).2.free_list = [64, 8]
    ∧ (is_fragmented tripleFreeState).2.free_list ≠ [40, 8]
    ∧ (is_fragmented tripleFreeState).2.mem 0 = 48
    ∧ (is_fragmented tripleFreeState).2.mem 32 = 16 := by decide

/-- Claim C7, counterexample.  Over `signedByteMem` both chunks are
eligible for a request of 10, with read sizes 56 (at 8) and 16 (at 24).
BestFit should return 24 (the smallest) but the code compares against the
incumbent's raw signed header byte (−56), so it keeps 8; WorstFit should
return 8 (the largest) but replaces it by 24 for the same reason. -/
theorem C7_counterexample :
    readSize signedByteMem 8 = 56
    ∧ readSize signedByteMem 24 = 16
    ∧ 10 ≤ readSize signedByteMem 24
    ∧ readSize signedByteMem 24 < readSize signedByteMem 8
    ∧ select bestFitState 10 = some 8
    ∧ select worstFitState 10 = some 24 := by decide

/-- Claim C10, counterexample.  initialize(128) stores the rounded capacity
128 into the header; 128 % 256 ≥ 128, yet the size the allocator
subsequently reads — abs of the signed byte 0x80, i.e. abs(−128) — is
exactly 128, equal to the true size, contradicting the claimed
"differs from s" for every such s. -/
theorem C10_counterexample :
    (initialize_allocator 128 allocation_algorithm.FIRST_FIT).size = 128
    ∧ 128 ≤ 128 % 256
    ∧ available_memory (initialize_allocator 128 allocation_algorithm.FIRST_FIT)
        = 128 := by decide

theorem sbyte_roundtrip_ne (s : Nat)
    (h : (128 ≤ s % 256 ∧ s ≠ 128) ∨ (s % 256 = 0 ∧ s ≠ 0)) :
    (sbyte (s % 256)).natAbs ≠ s := by
  rw [sbyte_mod]
  unfold sbyte
  rcases h with ⟨h1, h2⟩ | ⟨h1, h2⟩
  · rw [if_neg (by omega)]
    omega
  · rw [if_pos (by omega)]
    omega

/-- Claim C10, amended: every header update in allocate, deallocate and
is_fragmented stores one byte (`writeHeaderByte` in this embedding), and
every size read takes abs of one signed byte of the header (`readSize`);
consequently for every chunk whose true size s satisfies s mod 256 ≥ 128 —
except s = 128 itself, where abs(−128) reads back exactly 128 — or
s mod 256 = 0 with s ≠ 0, the size subsequently read differs from s.  This
holds both for the one-byte stores and for the full `size_t` store of
initialize (whose low byte lands at the read position). -/
theorem C10_amended (m : Mem) (p s : Nat)
    (h : (128 ≤ s % 256 ∧ s ≠ 128) ∨ (s % 256 = 0 ∧ s ≠ 0)) :
    readSize (writeHeaderByte m p s) p ≠ s
    ∧ readSize (writeSizeT m (p - HEADER_SIZE) s) p ≠ s := by
  have e1 : readSize (writeHeaderByte m p s) p = (sbyte (s % 256)).natAbs := by
    unfold readSize writeHeaderByte writeByte
    rw [if_pos rfl]
  have e2 : readSize (writeSizeT m (p - HEADER_SIZE) s) p
      = (sbyte (s % 256)).natAbs := by
    unfold readSize writeSizeT
    rw [if_pos ⟨le_refl _, by omega⟩]
    simp [Nat.sub_self]
  rw [e1, e2]
  exact ⟨sbyte_roundtrip_ne s h, sbyte_roundtrip_ne s h⟩

/-- Witness for C10_amended at s = 384 (384 mod 256 = 128 ≥ 128, s ≠ 128):
the byte read back is 128, not 384. -/
theorem C10_amended_witness :
    readSize (writeHeaderByte (fun _ => 0) 8 384) 8 ≠ 384
    ∧ readSize (writeSizeT (fun _ => 0) 0 384) 8 ≠ 384 :=
  C10_amended (fun _ => 0) 8 384 (Or.inl (by decide))

/-! ## C9: allocation failure leaves the state untouched -/

theorem firstFitLoop_none (m : Mem) (sz : Nat) (l : List Nat)
    (h : ∀ p ∈ l, readSize m p < sz) : firstFitLoop m sz l = none := by
  induction l with
  | nil => rfl
  | cons p rest ih =>
    simp only [firstFitLoop]
    rw [if_neg (Nat.not_le.mpr (h p (List.mem_cons_self p rest)))]
    exact ih fun q hq => h q (List.mem_cons_of_mem p hq)

theorem bestFitLoop_skip (m : Mem) (sz : Nat) (l : List Nat)
    (h : ∀ p ∈ l, readSize m p < sz) :
    ∀ acc, bestFitLoop m sz l acc = acc := by
  induction l with
  | nil => intro acc; rfl
  | cons p rest ih =>
    intro acc
    simp only [bestFitLoop]
    rw [if_neg (Nat.not_le.mpr (h p (List.mem_cons_self p rest)))]
    exact ih (fun q hq => h q (List.mem_cons_of_mem p hq)) acc

theorem worstFitLoop_skip (m : Mem) (sz : Nat) (l : List Nat)
    (h : ∀ p ∈ l, readSize m p < sz) :
    ∀ acc, worstFitLoop m sz l acc = acc := by
  induction l with
  | nil => intro acc; rfl
  | cons p rest ih =>
    intro acc
    simp only [worstFitLoop]
    rw [if_neg (Nat.not_le.mpr (h p (List.mem_cons_self p rest)))]
    exact ih (fun q hq => h q (List.mem_cons_of_mem p hq)) acc

theorem select_none_of_no_fit (st : Myalloc) (sz : Nat)
    (h : ∀ p ∈ st.free_list, readSize st.mem p < sz) : select st sz = none := by
  unfold select
  cases halg : st.aalgorithm
  · exact firstFitLoop_none st.mem sz st.free_list h
  · exact bestFitLoop_skip st.mem sz st.free_list h none
  · exact worstFitLoop_skip st.mem sz st.free_list h none

/-- Claim C9 (confirmed).  Whenever no free chunk has (read) size at least
the requested size — in particular when the free list is empty — allocate
returns none and the state, including both registries and both counters, is
returned unchanged. -/
theorem C9_failed_allocate_no_mutation (st : Myalloc) (sz : Nat)
    (h : ∀ p ∈ st.free_list, readSize st.mem p < sz) :
    allocate st sz = (none, st) := by
  unfold allocate
  by_cases hf : st.free_list = []
  · rw [if_pos hf]
  · rw [if_neg hf, select_none_of_no_fit st sz h]

/-- Witness for C9: requesting 100 from `bestFitState` (free sizes 56 and
16) fails without mutation. -/
theorem C9_witness : allocate bestFitState 100 = (none, bestFitState) :=
  C9_failed_allocate_no_mutation bestFitState 100 (by decide)

/-! ## C7 amended: placement policies against their spec descriptions -/

/-- Spec wording: first chunk in traversal order with size at least the
request. -/
def spec_firstFit (m : Mem) (sz : Nat) : List Nat → Option Nat
  | [] => none
  | p :: rest => if sz ≤ readSize m p then some p else spec_firstFit m sz rest

/-- Spec wording: the eligible chunk with the smallest size across the
whole set, the earliest winning ties (the head beats an equally small best
of the tail). -/
def spec_bestFit (m : Mem) (sz : Nat) : List Nat → Option Nat
  | [] => none
  | p :: rest =>
    match spec_bestFit m sz rest with
    | none => if sz ≤ readSize m p then some p else none
    | some q =>
      if sz ≤ readSize m p ∧ readSize m p ≤ readSize m q then some p else some q

/-- Spec wording: the eligible chunk with the largest size across the whole
set, the earliest winning ties. -/
def spec_worstFit (m : Mem) (sz : Nat) : List Nat → Option Nat
  | [] => none
  | p :: rest =>
    match spec_worstFit m sz rest with
    | none => if sz ≤ readSize m p then some p else none
    | some q =>
      if sz ≤ readSize m p ∧ readSize m q ≤ readSize m p then some p else some q

theorem sbyte_eq_readSize (m : Mem) (q : Nat)
    (h : m (q - HEADER_SIZE) % 256 < 128) :
    sbyte (m (q - HEADER_SIZE)) = (readSize m q : Int) := by
  unfold readSize sbyte
  rw [if_pos h, Int.natAbs_ofNat]

theorem firstFitLoop_eq (m : Mem) (sz : Nat) (l : List Nat) :
    firstFitLoop m sz l = spec_firstFit m sz l := by
  induction l with
  | nil => rfl
  | cons p rest ih =>
    simp only [firstFitLoop, spec_firstFit]
    rw [ih]

theorem bestFitLoop_some_eq (m : Mem) (sz : Nat) (l : List Nat)
    (hb : ∀ p ∈ l, m (p - HEADER_SIZE) % 256 < 128) :
    ∀ q, m (q - HEADER_SIZE) % 256 < 128 →
      bestFitLoop m sz l (some q)
        = match spec_bestFit m sz l with
          | none => some q
          | some r => if readSize m r < readSize m q then some r else some q := by
  induction l with
  | nil => intro q _; rfl
  | cons p rest ih =>
    intro q hq
    have hp : m (p - HEADER_SIZE) % 256 < 128 := hb p (List.mem_cons_self p rest)
    have hbr : ∀ x ∈ rest, m (x - HEADER_SIZE) % 256 < 128 :=
      fun x hx => hb x (List.mem_cons_of_mem p hx)
    simp only [bestFitLoop, spec_bestFit]
    by_cases ep : sz ≤ readSize m p
    · rw [if_pos ep, sbyte_eq_readSize m q hq]
      by_cases cmp : readSize m p < readSize m q
      · rw [if_pos (by exact_mod_cast cmp), ih hbr p hp]
        cases hrest : spec_bestFit m sz rest with
        | none => simp [hrest, ep, cmp]
        | some r =>
          by_cases har : readSize m p ≤ readSize m r
          · have hno : ¬ readSize m r < readSize m p := by omega
            simp [hrest, ep, cmp, har, hno]
          · have hlt : readSize m r < readSize m p := by omega
            have hrq : readSize m r < readSize m q := by omega
            simp [hrest, har, hlt, hrq]
      · rw [if_neg (by exact_mod_cast cmp), ih hbr q hq]
        cases hrest : spec_bestFit m sz rest with
        | none => simp [hrest, ep, cmp]
        | some r =>
          by_cases har : readSize m p ≤ readSize m r
          · have hno : ¬ readSize m r < readSize m q := by omega
            simp [hrest, ep, cmp, har, hno]
          · simp [hrest, har]
    · rw [if_neg ep, ih hbr q hq]
      cases hrest : spec_bestFit m sz rest with
      | none => simp [hrest, ep]
      | some r => simp [hrest, ep]

theorem bestFitLoop_eq (m : Mem) (sz : Nat) (l : List Nat)
    (hb : ∀ p ∈ l, m (p - HEADER_SIZE) % 256 < 128) :
    bestFitLoop m sz l none = spec_bestFit m sz l := by
  induction l with
  | nil => rfl
  | cons p rest ih =>
    have hp : m (p - HEADER_SIZE) % 256 < 128 := hb p (List.mem_cons_self p rest)
    have hbr : ∀ x ∈ rest, m (x - HEADER_SIZE) % 256 < 128 :=
      fun x hx => hb x (List.mem_cons_of_mem p hx)
    simp only [bestFitLoop, spec_bestFit]
    by_cases ep : sz ≤ readSize m p
    · rw [if_pos ep, bestFitLoop_some_eq m sz rest hbr p hp]
      cases hrest : spec_bestFit m sz rest with
      | none => simp [hrest, ep]
      | some r =>
        by_cases har : readSize m p ≤ readSize m r
        · have hno : ¬ readSize m r < readSize m p := by omega
          simp [hrest, ep, har, hno]
        · have hlt : readSize m r < readSize m p := by omega
          simp [hrest, har, hlt]
    · rw [if_neg ep, ih hbr]
      cases hrest : spec_bestFit m sz rest with
      | none => simp [hrest, ep]
      | some r => simp [hrest, ep]

theorem worstFitLoop_some_eq (m : Mem) (sz : Nat) (l : List Nat)
    (hb : ∀ p ∈ l, m (p - HEADER_SIZE) % 256 < 128) :
    ∀ q, m (q - HEADER_SIZE) % 256 < 128 →
      worstFitLoop m sz l (some q)
        = match spec_worstFit m sz l with
          | none => some q
          | some r => if readSize m q < readSize m r then some r else some q := by
  induction l with
  | nil => intro q _; rfl
  | cons p rest ih =>
    intro q hq
    have hp : m (p - HEADER_SIZE) % 256 < 128 := hb p (List.mem_cons_self p rest)
    have hbr : ∀ x ∈ rest, m (x - HEADER_SIZE) % 256 < 128 :=
      fun x hx => hb x (List.mem_cons_of_mem p hx)
    simp only [worstFitLoop, spec_worstFit]
    by_cases ep : sz ≤ readSize m p
    · rw [if_pos ep, sbyte_eq_readSize m q hq]
      by_cases cmp : readSize m q < readSize m p
      · rw [if_pos (by exact_mod_cast cmp), ih hbr p hp]
        cases hrest : spec_worstFit m sz rest with
        | none => simp [hrest, ep, cmp]
        | some r =>
          by_cases har : readSize m r ≤ readSize m p
          · have hno : ¬ readSize m p < readSize m r := by omega
            simp [hrest, ep, cmp, har, hno]
          · have hlt : readSize m p < readSize m r := by omega
            have hrq : readSize m q < readSize m r := by omega
            simp [hrest, har, hlt, hrq]
      · rw [if_neg (by exact_mod_cast cmp), ih hbr q hq]
        cases hrest : spec_worstFit m sz rest with
        | none => simp [hrest, ep, cmp]
        | some r =>
          by_cases har : readSize m r ≤ readSize m p
          · have hno : ¬ readSize m q < readSize m r := by omega
            simp [hrest, ep, cmp, har, hno]
          · simp [hrest, har]
    · rw [if_neg ep, ih hbr q hq]
      cases hrest : spec_worstFit m sz rest with
      | none => simp [hrest, ep]
      | some r => simp [hrest, ep]

theorem worstFitLoop_eq (m : Mem) (sz : Nat) (l : List Nat)
    (hb : ∀ p ∈ l, m (p - HEADER_SIZE) % 256 < 128) :
    worstFitLoop m sz l none = spec_worstFit m sz l := by
  induction l with
  | nil => rfl
  | cons p rest ih =>
    have hp : m (p - HEADER_SIZE) % 256 < 128 := hb p (List.mem_cons_self p rest)
    have hbr : ∀ x ∈ rest, m (x - HEADER_SIZE) % 256 < 128 :=
      fun x hx => hb x (List.mem_cons_of_mem p hx)
    simp only [worstFitLoop, spec_worstFit]
    by_cases ep : sz ≤ readSize m p
    · rw [if_pos ep, worstFitLoop_some_eq m sz rest hbr p hp]
      cases hrest : spec_worstFit m sz rest with
      | none => simp [hrest, ep]
      | some r =>
        by_cases har : readSize m r ≤ readSize m p
        · have hno : ¬ readSize m p < readSize m r := by omega
          simp [hrest, ep, har, hno]
        · have hlt : readSize m p < readSize m r := by omega
          simp [hrest, har, hlt]
    · rw [if_neg ep, ih hbr]
      cases hrest : spec_worstFit m sz rest with
      | none => simp [hrest, ep]
      | some r => simp [hrest, ep]

theorem spec_firstFit_none_iff (m : Mem) (sz : Nat) (l : List Nat) :
    spec_firstFit m sz l = none ↔ ∀ p ∈ l, readSize m p < sz := by
  induction l with
  | nil => simp [spec_firstFit]
  | cons p rest ih =>
    simp only [spec_firstFit, List.forall_mem_cons]
    by_cases ep : sz ≤ readSize m p
    · rw [if_pos ep]
      constructor
      · intro h; exact absurd h (by simp)
      · intro h; omega
    · rw [if_neg ep, ih]
      constructor
      · intro h; exact ⟨by omega, h⟩
      · intro h; exact h.2

theorem spec_bestFit_none_iff (m : Mem) (sz : Nat) (l : List Nat) :
    spec_bestFit m sz l = none ↔ ∀ p ∈ l, readSize m p < sz := by
  induction l with
  | nil => simp [spec_bestFit]
  | cons p rest ih =>
    simp only [spec_bestFit, List.forall_mem_cons]
    cases hrest : spec_bestFit m sz rest with
    | none =>
      have hr : ∀ x ∈ rest, readSize m x < sz := ih.mp hrest
      by_cases ep : sz ≤ readSize m p
      · rw [if_pos ep]
        constructor
        · intro h; exact absurd h (by simp)
        · intro h; omega
      · rw [if_neg ep]
        constructor
        · intro _; exact ⟨by omega, hr⟩
        · intro _; rfl
    | some r =>
      constructor
      · intro h
        have h2 : (if sz ≤ readSize m p ∧ readSize m p ≤ readSize m r
            then some p else some r) = none := h
        split at h2 <;> exact absurd h2 (by simp)
      · intro h
        exact absurd (ih.mpr h.2) (by rw [hrest]; simp)

theorem spec_worstFit_none_iff (m : Mem) (sz : Nat) (l : List Nat) :
    spec_worstFit m sz l = none ↔ ∀ p ∈ l, readSize m p < sz := by
  induction l with
  | nil => simp [spec_worstFit]
  | cons p rest ih =>
    simp only [spec_worstFit, List.forall_mem_cons]
    cases hrest : spec_worstFit m sz rest with
    | none =>
      have hr : ∀ x ∈ rest, readSize m x < sz := ih.mp hrest
      by_cases ep : sz ≤ readSize m p
      · rw [if_pos ep]
        constructor
        · intro h; exact absurd h (by simp)
        · intro h; omega
      · rw [if_neg ep]
        constructor
        · intro _; exact ⟨by omega, hr⟩
        · intro _; rfl
    | some r =>
      constructor
      · intro h
        have h2 : (if sz ≤ readSize m p ∧ readSize m r ≤ readSize m p
            then some p else some r) = none := h
        split at h2 <;> exact absurd h2 (by simp)
      · intro h
        exact absurd (ih.mpr h.2) (by rw [hrest]; simp)

/-- Claim C7, amended.  Provided every free chunk's stored header byte is
below 128 (nonnegative as a signed char), the placement search implements
the spec policies exactly: FirstFit is the first eligible chunk in
traversal order, BestFit the smallest eligible chunk (earliest on ties),
WorstFit the largest eligible chunk (earliest on ties), and each returns
none exactly when no chunk qualifies.  (Without the proviso the Best/Worst
comparisons against the incumbent's raw signed byte misbehave, see the
counterexample.) -/
theorem C7_amended (st : Myalloc) (sz : Nat)
    (hb : ∀ p ∈ st.free_list, st.mem (p - HEADER_SIZE) % 256 < 128) :
    select st sz
      = (match st.aalgorithm with
        | allocation_algorithm.FIRST_FIT => spec_firstFit st.mem sz st.free_list
        | allocation_algorithm.BEST_FIT => spec_bestFit st.mem sz st.free_list
        | allocation_algorithm.WORST_FIT => spec_worstFit st.mem sz st.free_list)
    ∧ (spec_firstFit st.mem sz st.free_list = none
        ↔ ∀ p ∈ st.free_list, readSize st.mem p < sz)
    ∧ (spec_bestFit st.mem sz st.free_list = none
        ↔ ∀ p ∈ st.free_list, readSize st.mem p < sz)
    ∧ (spec_worstFit st.mem sz st.free_list = none
        ↔ ∀ p ∈ st.free_list, readSize st.mem p < sz) := by
  refine ⟨?_, spec_firstFit_none_iff st.mem sz st.free_list,
          spec_bestFit_none_iff st.mem sz st.free_list,
          spec_worstFit_none_iff st.mem sz st.free_list⟩
  unfold select
  cases halg : st.aalgorithm
  · exact firstFitLoop_eq st.mem sz st.free_list
  · exact bestFitLoop_eq st.mem sz st.free_list hb
  · exact worstFitLoop_eq st.mem sz st.free_list hb

/-- Memory with both free-chunk header bytes below 128: sizes 32 (at 8) and
16 (at 24). -/
def smallByteMem : Mem :=
  fun x => if x = 0 then 32 else if x = 16 then 16 else 0

/-- BEST_FIT state over `smallByteMem` with free list [8, 24]. -/
def bestFitSmall : Myalloc :=
  { aalgorithm := allocation_algorithm.BEST_FIT, size := 64,
    mem := smallByteMem, free_list := [8, 24], allocated_list := [],
    available_memory := 48, used_memory := 0 }

/-- Witness for C7_amended on `bestFitSmall` with request 10. -/
theorem C7_amended_witness :
    select bestFitSmall 10 = spec_bestFit bestFitSmall.mem 10 bestFitSmall.free_list
    ∧ (spec_firstFit bestFitSmall.mem 10 bestFitSmall.free_list = none
        ↔ ∀ p ∈ bestFitSmall.free_list, readSize bestFitSmall.mem p < 10)
    ∧ (spec_bestFit bestFitSmall.mem 10 bestFitSmall.free_list = none
        ↔ ∀ p ∈ bestFitSmall.free_list, readSize bestFitSmall.mem p < 10)
    ∧ (spec_worstFit bestFitSmall.mem 10 bestFitSmall.free_list = none
        ↔ ∀ p ∈ bestFitSmall.free_list, readSize bestFitSmall.mem p < 10) :=
  C7_amended bestFitSmall 10 (by decide)

/-! ## C6 amended: characterizing the fragmentation scan -/

/-- Mutual adjacency of two free chunks, as the spec words it: `p` is
right-adjacent to `c`, or left-adjacent to it. -/
def isAdjacentPair (m : Mem) (c p : Nat) : Bool :=
  decide (p = c + readSize m c + HEADER_SIZE)
    || decide (c = p + readSize m p + HEADER_SIZE)

/-- Orientation of a merge partner: left when the current chunk starts
right after the partner (the left-adjacency test of the scan runs after the
right-adjacency test, so it has priority; both can never hold at once). -/
def orientOf (m : Mem) (c p : Nat) : Adj :=
  if c = p + readSize m p + HEADER_SIZE then Adj.left else Adj.right

/-- Amended-spec selection of the merged pair: the first chunk in traversal
order that has an adjacent partner later in the list, together with its
LAST such partner. -/
def spec_mergePair (m : Mem) : List Nat → Option (Nat × Nat)
  | [] => none
  | c :: rest =>
    match (rest.filter (fun p => isAdjacentPair m c p)).getLast? with
    | some p => some (c, p)
    | none => spec_mergePair m rest

/-- Amended-spec version of is_fragmented: empty free set gives false with
no mutation; more than one free chunk gives true, merging the
`spec_mergePair` pair (if any) along its orientation; exactly one free
chunk gives true iff its address precedes some allocated chunk's address,
with no mutation. -/
def spec_is_fragmented (st : Myalloc) : Bool × Myalloc :=
  if st.free_list.length = 0 then (false, st)
  else if 1 < st.free_list.length then
    match spec_mergePair st.mem st.free_list with
    | none => (true, st)
    | some (c, p) =>
      if c = p + readSize st.mem p + HEADER_SIZE then
        (true,
         { st with
             mem := writeHeaderByte st.mem p
                      (readSize st.mem p + HEADER_SIZE + readSize st.mem c),
             free_list := List_deleteNode st.free_list c })
      else
        (true,
         { st with
             mem := writeHeaderByte st.mem c
                      (readSize st.mem c + HEADER_SIZE + readSize st.mem p),
             free_list := List_deleteNode st.free_list p })
  else
    match st.free_list with
    | [] => (false, st)
    | f :: _ => (st.allocated_list.any (fun a => decide (f < a)), st)

theorem innerScan_eq (m : Mem) (c : Nat) (l : List Nat) :
    ∀ acc, innerScan m c (readSize m c) l acc
      = match (l.filter (fun p => isAdjacentPair m c p)).getLast? with
        | some p => some (p, orientOf m c p)
        | none => acc := by
  induction l with
  | nil => intro acc; rfl
  | cons n rest ih =>
    intro acc
    simp only [innerScan]
    rw [ih]
    rw [List.filter_cons]
    by_cases hl : c = n + readSize m n + HEADER_SIZE
    · have hpred : isAdjacentPair m c n = true := by
        simp [isAdjacentPair, hl]
      rw [if_pos hl, if_pos hpred, List.getLast?_cons]
      cases hfr : (rest.filter (fun p => isAdjacentPair m c p)).getLast? with
      | none => simp [orientOf, hl]
      | some p => rfl
    · by_cases hr : n = c + readSize m c + HEADER_SIZE
      · have hpred : isAdjacentPair m c n = true := by
          simp [isAdjacentPair, hr]
        rw [if_neg hl, if_pos hr, if_pos hpred, List.getLast?_cons]
        cases hfr : (rest.filter (fun p => isAdjacentPair m c p)).getLast? with
        | none => simp [orientOf, hl]
        | some p => rfl
      · have hpred : ¬ (isAdjacentPair m c n = true) := by
          simp [isAdjacentPair, hl, hr]
        rw [if_neg hl, if_neg hr, if_neg hpred]

theorem outerScan_eq (m : Mem) (l : List Nat) :
    outerScan m l
      = match spec_mergePair m l with
        | some (c, p) => some (c, p, orientOf m c p)
        | none => none := by
  induction l with
  | nil => rfl
  | cons c rest ih =>
    simp only [outerScan, spec_mergePair]
    rw [innerScan_eq m c rest none]
    cases hfr : (rest.filter (fun p => isAdjacentPair m c p)).getLast? with
    | some p => rfl
    | none => exact ih

/-- Claim C6, amended.  is_fragmented behaves exactly as the amended
description `spec_is_fragmented`: false with no mutation on an empty free
set; with more than one free chunk, true, merging the pair made of the
first chunk with an adjacent partner and that chunk's last partner in
traversal order (left orientation taking priority at a node), absorbing
along the orientation; with exactly one free chunk, true iff its address
precedes some allocated address, with no mutation. -/
theorem C6_amended (st : Myalloc) : is_fragmented st = spec_is_fragmented st := by
  simp only [is_fragmented, spec_is_fragmented]
  by_cases h0 : st.free_list.length = 0
  · rw [if_pos h0, if_pos h0]
  · rw [if_neg h0, if_neg h0]
    by_cases h1 : 1 < st.free_list.length
    · rw [if_pos h1, if_pos h1, outerScan_eq]
      cases hsp : spec_mergePair st.mem st.free_list with
      | none => rfl
      | some cp =>
        obtain ⟨c, p⟩ := cp
        simp only [orientOf]
        by_cases hor : c = p + readSize st.mem p + HEADER_SIZE
        · rw [if_pos hor, if_pos hor]
        · rw [if_neg hor, if_neg hor]
    · rw [if_neg h1, if_neg h1]

/-! ## C5 amended: one-hole-one-chunk compaction when the chunk outsizes the hole -/

/-- State of the hole/chunk arena after the single relocation iteration of
compact_allocation: the chunk bytes moved to the base, the hole descriptor
deleted, a new free node at `cs + 8` whose header byte holds the old hole
size. -/
def holeChunkMoved (hs cs : Nat) : Myalloc :=
  { aalgorithm := allocation_algorithm.FIRST_FIT
    size := hs + 8 + cs
    mem := writeHeaderByte (memmove (holeChunkMem hs cs) 0 (hs + 8) cs) (cs + 8) hs
    free_list := [cs + 8]
    allocated_list := [hs + 16]
    available_memory := hs
    used_memory := cs }

theorem isFrag_holeChunkState (hs cs : Nat) :
    is_fragmented (holeChunkState hs cs) = (true, holeChunkState hs cs) := by
  simp only [is_fragmented, holeChunkState, HEADER_SIZE_eq, List.length_cons,
    List.length_nil, List.any_cons, List.any_nil]
  norm_num

theorem holeChunkMem_src (hs cs : Nat) (h1 : 0 < hs) :
    holeChunkMem hs cs (hs + 8) = cs := by
  simp only [holeChunkMem, HEADER_SIZE_eq]
  rw [if_neg (by omega)]
  simp

theorem holeChunkMem_base (hs cs : Nat) : holeChunkMem hs cs 0 = hs := by
  simp [holeChunkMem]

theorem compactLoop_relocates (hs cs fuel : Nat) (h1 : 0 < hs)
    (h2 : hs + 8 ≤ cs) (h3 : cs ≤ 127) :
    compactLoop (Nat.succ fuel) (holeChunkState hs cs) none
      = compactLoop fuel (holeChunkMoved hs cs) (some 0) := by
  simp only [compactLoop]
  rw [isFrag_holeChunkState]
  simp only [holeChunkState, findLeftmost, List_deleteNode, List_insertHead,
    HEADER_SIZE_eq, List.length_cons, List.length_nil]
  norm_num
  have ha : hs + 16 - 8 = hs + 8 := by omega
  rw [ha, holeChunkMem_src hs cs h1, holeChunkMem_base hs cs,
    sbyte_natAbs_small cs (by omega), sbyte_natAbs_small hs (by omega)]
  rfl

theorem isFrag_holeChunkMoved (hs cs : Nat) (h2 : hs + 8 ≤ cs) :
    is_fragmented (holeChunkMoved hs cs) = (false, holeChunkMoved hs cs) := by
  simp only [is_fragmented, holeChunkMoved, HEADER_SIZE_eq, List.length_cons,
    List.length_nil, List.any_cons, List.any_nil]
  have hno : ¬ (cs + 8 < hs + 16) := by omega
  simp [hno]

theorem compactLoop_exits (hs cs fuel : Nat) (h2 : hs + 8 ≤ cs) :
    compactLoop (Nat.succ fuel) (holeChunkMoved hs cs) (some 0)
      = (holeChunkMoved hs cs, some 0) := by
  simp only [compactLoop]
  rw [isFrag_holeChunkMoved hs cs h2]

theorem readSize_holeChunkMoved (hs cs : Nat) (h1 : 0 < hs)
    (h2 : hs + 8 ≤ cs) (h3 : cs ≤ 127) :
    readSize (holeChunkMoved hs cs).mem 8 = cs := by
  have hne : (8 : Nat) - HEADER_SIZE ≠ (cs + 8) - HEADER_SIZE := by
    simp only [HEADER_SIZE_eq]
    omega
  show readSize
      (writeHeaderByte (memmove (holeChunkMem hs cs) 0 (hs + 8) cs) (cs + 8) hs)
      8 = cs
  rw [readSize_writeHeaderByte_ne _ _ _ _ hne]
  unfold readSize memmove
  rw [if_pos ⟨le_refl 0, by omega⟩]
  simp only [HEADER_SIZE_eq]
  norm_num
  rw [holeChunkMem_src hs cs h1, sbyte_natAbs_small cs (by omega)]

/-- Claim C5, amended.  On an arena laid out as one free hole (size hs > 0)
followed by one allocated chunk (size cs) with cs at least hs + 8 and both
header bytes exact (cs ≤ 127), compact_allocation (with any sufficient
fuel for its while loop, 2 steps here) returns exactly 1 and fills exactly
the pair (hs + 16, 8); afterwards is_fragmented() is false, the single
allocated chunk sits at the arena base (address 8, read size cs), and
exactly one trailing free chunk remains, at address cs + 8.  (When
cs < hs + 8 the loop runs a second, bogus iteration and the allocated chunk
ends away from the base — see the counterexample.) -/
theorem C5_amended (hs cs fuel : Nat) (h1 : 0 < hs) (h2 : hs + 8 ≤ cs)
    (h3 : cs ≤ 127) (hf : 2 ≤ fuel) :
    (compact_allocation fuel (holeChunkState hs cs)).1 = 1
    ∧ (compact_allocation fuel (holeChunkState hs cs)).2.1 = [(hs + 16, 8)]
    ∧ (compact_allocation fuel (holeChunkState hs cs)).2.2.allocated_list = [8]
    ∧ readSize (compact_allocation fuel (holeChunkState hs cs)).2.2.mem 8 = cs
    ∧ (compact_allocation fuel (holeChunkState hs cs)).2.2.free_list = [cs + 8]
    ∧ (is_fragmented (compact_allocation fuel (holeChunkState hs cs)).2.2).1
        = false := by
  obtain ⟨k, rfl⟩ : ∃ k, fuel = k + 2 := ⟨fuel - 2, by omega⟩
  have hloop : compactLoop (k + 2) (holeChunkState hs cs) none
      = (holeChunkMoved hs cs, some 0) := by
    calc compactLoop (k + 2) (holeChunkState hs cs) none
        = compactLoop (k + 1) (holeChunkMoved hs cs) (some 0) :=
          compactLoop_relocates hs cs (k + 1) h1 h2 h3
      _ = (holeChunkMoved hs cs, some 0) := compactLoop_exits hs cs k h2
  have hu : (holeChunkState hs cs).used_memory = cs := rfl
  have hv : (holeChunkState hs cs).available_memory = hs := rfl
  have hca : compact_allocation (k + 2) (holeChunkState hs cs)
      = (1, [(hs + 16, 8)],
         { holeChunkMoved hs cs with
             allocated_list := [8],
             available_memory := available_memory
               { holeChunkMoved hs cs with allocated_list := [8] },
             used_memory := used_memory
               { holeChunkMoved hs cs with allocated_list := [8] } }) := by
    simp only [compact_allocation, hu, hv]
    rw [if_neg (by omega), if_neg (by omega),
      if_neg (show ¬(holeChunkState hs cs).allocated_list.isEmpty = true by
        simp [holeChunkState]),
      if_neg (show ¬(holeChunkState hs cs).free_list.isEmpty = true by
        simp [holeChunkState]),
      hloop]
    simp only [updateAllocLoop, holeChunkMoved, HEADER_SIZE_eq]
    rw [if_neg (show ¬ hs + 16 = 0 + 8 by omega)]
    norm_num
  rw [hca]
  refine ⟨rfl, rfl, rfl, ?_, rfl, ?_⟩
  · exact readSize_holeChunkMoved hs cs h1 h2 h3
  · simp only [is_fragmented, holeChunkMoved, List.length_cons, List.length_nil,
      List.any_cons, List.any_nil]
    have hno : ¬ (cs + 8 < 8) := by omega
    simp [hno]

/-- Witness for C5_amended: hole of size 16, chunk of size 32, fuel 2. -/
theorem C5_amended_witness :
    (compact_allocation 2 (holeChunkState 16 32)).1 = 1
    ∧ (compact_allocation 2 (holeChunkState 16 32)).2.1 = [(32, 8)]
    ∧ (compact_allocation 2 (holeChunkState 16 32)).2.2.allocated_list = [8]
    ∧ readSize (compact_allocation 2 (holeChunkState 16 32)).2.2.mem 8 = 32
    ∧ (compact_allocation 2 (holeChunkState 16 32)).2.2.free_list = [40]
    ∧ (is_fragmented (compact_allocation 2 (holeChunkState 16 32)).2.2).1
        = false :=
  C5_amended 16 32 2 (by decide) (by decide) (by decide) (by decide)

/-! ## C8: the split / whole-chunk branches of a successful allocate -/

/-- Claim C8 (confirmed).  For a successful allocate that selected chunk
`ptr` with leftover = readSize(ptr) − sz: if the leftover exceeds the header
size, the allocation keeps address `ptr` with its header now reading `sz`,
and the remainder stays in the free list as the same node mutated in place
(address advanced by sz + 8, header reading leftover − 8); otherwise the
whole chunk is removed from the free list and the memory (hence the header)
is untouched. -/
theorem C8_split_or_consume (st : Myalloc) (sz ptr : Nat)
    (hne : st.free_list ≠ []) (hsel : select st sz = some ptr)
    (hp : 8 ≤ ptr) (hsz : 0 < sz) :
    (8 < readSize st.mem ptr - sz →
        (allocate st sz).1 = some ptr
        ∧ (allocate st sz).2.free_list
            = replaceFirst st.free_list ptr (ptr + sz + HEADER_SIZE)
        ∧ readSize (allocate st sz).2.mem ptr = sz
        ∧ readSize (allocate st sz).2.mem (ptr + sz + HEADER_SIZE)
            = readSize st.mem ptr - sz - HEADER_SIZE)
    ∧ (readSize st.mem ptr - sz ≤ 8 →
        (allocate st sz).1 = some ptr
        ∧ (allocate st sz).2.free_list = List_deleteNode st.free_list ptr
        ∧ (allocate st sz).2.mem = st.mem) := by
  have hbound : readSize st.mem ptr ≤ 128 := readSize_le_128 st.mem ptr
  constructor
  · intro hlt
    simp only [allocate, if_neg hne, hsel, if_pos hlt]
    refine ⟨trivial, trivial, ?_, ?_⟩
    · rw [readSize_writeHeaderByte_ne _ _ _ _
          (by simp only [HEADER_SIZE_eq]; omega)]
      exact readSize_write_small st.mem ptr sz (by omega)
    · rw [readSize_writeHeaderByte_self, sbyte_natAbs_small _ (by omega)]
  · intro hle
    simp only [allocate, if_neg hne, hsel, if_neg (Nat.not_lt.mpr hle)]
    exact ⟨trivial, trivial, trivial⟩

/-- Witness for C8: allocate(16) on the fresh 64-byte arena splits the
single free chunk (leftover 48 > 8), and allocate(60) consumes a 64-byte
chunk whole (leftover 4 ≤ 8). -/
theorem C8_witness :
    ((allocate init64 16).1 = some 8
      ∧ (allocate init64 16).2.free_list
          = replaceFirst init64.free_list 8 (8 + 16 + HEADER_SIZE)
      ∧ readSize (allocate init64 16).2.mem 8 = 16
      ∧ readSize (allocate init64 16).2.mem (8 + 16 + HEADER_SIZE)
          = readSize init64.mem 8 - 16 - HEADER_SIZE)
    ∧ ((allocate init64 60).1 = some 8
      ∧ (allocate init64 60).2.free_list = List_deleteNode init64.free_list 8
      ∧ (allocate init64 60).2.mem = init64.mem) :=
  ⟨(C8_split_or_consume init64 16 8 (by decide) (by decide) (by decide)
      (by decide)).1 (by decide),
   (C8_split_or_consume init64 60 8 (by decide) (by decide) (by decide)
      (by decide)).2 (by decide)⟩
